import Mathlib

/-!
# Verification of the flac-splitter CUE model and splitting engine

Shallow embedding of the Go sources of `ldmonster/flac-splitter`:

* `internal/cueparser/parser.go` — the line-oriented CUE sheet parser
  (`ParseWithConfig`, `parseREMField`, `fillTrackDefaults`, `Validate`,
  `GetTrack`).
* `internal/flacsplitter/splitter.go` — `convertCueTimeToSeconds`,
  `sanitizeFilename`.
* `internal/flacsplitter/splitter_audio.go` — `cueTimeToSample`,
  `SplitWithGoAudio`, `extractSampleRange`, `SplitWithGoAudioSimple`.
* `internal/flacsplitter/splitter_external.go` — `writeFlacTags`.

Strings are modelled as Lean `String`s (lists of characters); the Go regular
expressions used by the parser are embedded as explicit character-level
matching functions, one per pattern, each following the pattern text.  Go's
`float64` arithmetic in the timecode conversion is modelled with exact
rationals: `fmt.Sprintf("%.3f", x)` is modelled as rounding to a multiple of
1/1000 (the rounded value is exactly representable in the decimal string the
code passes around), and the `uint64(...)` conversion as truncation toward
zero.  At every sample-rate/timecode pair used in concrete theorems below the
double-precision computation of the code and the exact rational computation
agree: the values are at distance ≥ 0.3 from the nearest truncation boundary
while the accumulated floating-point error is below 10⁻⁶.
-/

/-! ## Character classes of the Go regular expressions -/

/-- Go regexp `\s`, i.e. `[\t\n\f\r ]`. -/
def goSpace (c : Char) : Bool :=
  c = ' ' || c = '\t' || c = '\n' || c = '\x0c' || c = '\r'

/-- Go regexp `\d`, i.e. `[0-9]`. -/
def goDigit (c : Char) : Bool :=
  '0' ≤ c && c ≤ '9'

/-- Go regexp `\w`, i.e. `[0-9A-Za-z_]`. -/
def goWord (c : Char) : Bool :=
  goDigit c || ('a' ≤ c && c ≤ 'z') || ('A' ≤ c && c ≤ 'Z') || c = '_'

/-- Character class `[A-Z0-9]` of the ISRC pattern. -/
def goUpperDigit (c : Char) : Bool :=
  goDigit c || ('A' ≤ c && c ≤ 'Z')

/-- Character class `[A-F a-f 0-9]` of the DISCID pattern. -/
def goHex (c : Char) : Bool :=
  goDigit c || ('a' ≤ c && c ≤ 'f') || ('A' ≤ c && c ≤ 'F')

/-- Character class `[A-Z_]` opening the custom REM key pattern. -/
def goUpperUnd (c : Char) : Bool :=
  ('A' ≤ c && c ≤ 'Z') || c = '_'

/-- Character class `[A-Z0-9_]` continuing the custom REM key pattern. -/
def goUpperDigitUnd (c : Char) : Bool :=
  goUpperDigit c || c = '_'

/-! ## Matching primitives

Each Go pattern below is a concatenation of literals, greedy character-class
repetitions and a final optional/captured piece; in every pattern each greedy
repetition is over a class disjoint from the character that must follow it,
so greedy matching without backtracking is exact. -/

/-- Match a literal, returning the rest of the input. -/
def matchLit : List Char → List Char → Option (List Char)
  | [], cs => some cs
  | _ :: _, [] => none
  | p :: ps, c :: cs => if c = p then matchLit ps cs else none

/-- Match `\s+` (one or more spaces, greedy). -/
def matchSpaces1 : List Char → Option (List Char)
  | [] => none
  | c :: cs => if goSpace c then some (cs.dropWhile goSpace) else none

/-- Match `p+` for a character class `p` (greedy), capturing the run. -/
def takeClass1 (p : Char → Bool) : List Char → Option (List Char × List Char)
  | [] => none
  | c :: cs =>
    if p c then some (c :: cs.takeWhile p, cs.dropWhile p) else none

/-- Match `"([^"]+)"`, capturing the quoted text. -/
def matchQuoted (cs : List Char) : Option (List Char × List Char) := do
  let r ← matchLit (['"']) cs
  let (cap, r2) ← takeClass1 (fun c => !(c = '"')) r
  let r3 ← matchLit (['"']) r2
  pure (cap, r3)

/-- Match exactly `n` characters of class `p`, capturing them. -/
def takeClassN (p : Char → Bool) : Nat → List Char → Option (List Char × List Char)
  | 0, cs => some ([], cs)
  | _ + 1, [] => none
  | n + 1, c :: cs =>
    if p c then
      match takeClassN p n cs with
      | some (cap, rest) => some (c :: cap, rest)
      | none => none
    else none

/-- Go `strings.TrimSpace`, restricted to the ASCII space characters
(the CUE sheets at issue contain no exotic Unicode spaces). -/
def trimSpace (cs : List Char) : List Char :=
  ((cs.dropWhile goSpace).reverse.dropWhile goSpace).reverse

/-- Uppercase one ASCII character. -/
def asciiUpper (c : Char) : Char :=
  if 'a' ≤ c ∧ c ≤ 'z' then Char.ofNat (c.toNat - 32) else c

/-- Go `strings.ToUpper`, restricted to ASCII (the only place it is
applied to is a capture of `[A-Z_][A-Z0-9_]*`, on which it is the
identity). -/
def strToUpper (s : String) : String :=
  String.mk (s.toList.map asciiUpper)

/-! ## The parser's line patterns (`initPatterns` in parser.go) -/

/-- Pattern `FILE\s+"([^"]+)"\s+(\w+)` tried at one start position. -/
def matchFileAt (cs : List Char) : Option (List Char × List Char) := do
  let r ← matchLit (['F', 'I', 'L', 'E']) cs
  let r ← matchSpaces1 r
  let (name, r) ← matchQuoted r
  let r ← matchSpaces1 r
  let (ty, _) ← takeClass1 goWord r
  pure (name, ty)

/-- The FILE pattern is the only unanchored one: Go searches for the
leftmost position at which it matches. -/
def matchFile : List Char → Option (List Char × List Char)
  | [] => none
  | c :: cs =>
    match matchFileAt (c :: cs) with
    | some x => some x
    | none => matchFile cs

/-- Pattern `^\s*KEYWORD\s+"([^"]+)"` — shared shape of the PERFORMER, TITLE,
COMPOSER and SONGWRITER patterns. -/
def matchKeyQuoted (kw : List Char) (line : List Char) : Option (List Char) := do
  let r ← matchLit kw (line.dropWhile goSpace)
  let r ← matchSpaces1 r
  let (cap, _) ← matchQuoted r
  pure cap

/-- Pattern `^\s*CATALOG\s+(\d+)`. -/
def matchCatalog (line : List Char) : Option (List Char) := do
  let r ← matchLit (['C', 'A', 'T', 'A', 'L', 'O', 'G']) (line.dropWhile goSpace)
  let r ← matchSpaces1 r
  let (cap, _) ← takeClass1 goDigit r
  pure cap

/-- Pattern `^\s*TRACK\s+(\d+)\s+AUDIO` (the captured number is never used:
`ParseWithConfig` assigns sequence numbers itself). -/
def matchTrack (line : List Char) : Option (List Char) := do
  let r ← matchLit (['T', 'R', 'A', 'C', 'K']) (line.dropWhile goSpace)
  let r ← matchSpaces1 r
  let (cap, r) ← takeClass1 goDigit r
  let r ← matchSpaces1 r
  let _ ← matchLit (['A', 'U', 'D', 'I', 'O']) r
  pure cap

/-- Pattern `(\d+:\d+:\d+)` — the timecode capture shared by INDEX 01 / INDEX 00. -/
def matchTimecode (cs : List Char) : Option (List Char × List Char) := do
  let (d1, r) ← takeClass1 goDigit cs
  let r ← matchLit ([':']) r
  let (d2, r) ← takeClass1 goDigit r
  let r ← matchLit ([':']) r
  let (d3, r) ← takeClass1 goDigit r
  pure (d1 ++ ':' :: d2 ++ ':' :: d3, r)

/-- Pattern `^\s*INDEX\s+NN\s+(\d+:\d+:\d+)` for a fixed two-digit literal `NN`
(`01` for the main index, `00` for the pregap). -/
def matchIndexKind (nn : List Char) (line : List Char) : Option (List Char) := do
  let r ← matchLit (['I', 'N', 'D', 'E', 'X']) (line.dropWhile goSpace)
  let r ← matchSpaces1 r
  let r ← matchLit nn r
  let r ← matchSpaces1 r
  let (cap, _) ← matchTimecode r
  pure cap

/-- Pattern `^\s*ISRC\s+([A-Z0-9]+)`. -/
def matchIsrc (line : List Char) : Option (List Char) := do
  let r ← matchLit (['I', 'S', 'R', 'C']) (line.dropWhile goSpace)
  let r ← matchSpaces1 r
  let (cap, _) ← takeClass1 goUpperDigit r
  pure cap

/-! ## REM patterns (matched by `parseREMField` on the trimmed line) -/

/-- Pattern `^\s*REM\s+KEY\s+` — shared opening of the specific REM patterns. -/
def matchRemKey (kw : List Char) (line : List Char) : Option (List Char) := do
  let r ← matchLit (['R', 'E', 'M']) (line.dropWhile goSpace)
  let r ← matchSpaces1 r
  let r ← matchLit kw r
  matchSpaces1 r

/-- Pattern `^\s*REM\s+DATE\s+(\d{4}(?:-\d{2}-\d{2})?)` — Go's leftmost-first
semantics tries the optional `-\d{2}-\d{2}` extension first. -/
def matchRemDate (line : List Char) : Option (List Char) := do
  let r ← matchRemKey (['D', 'A', 'T', 'E']) line
  let (y, r) ← takeClassN goDigit 4 r
  match matchDateTail r with
  | some tail => pure (y ++ tail)
  | none => pure y
where
  /-- The optional `-\d{2}-\d{2}` suffix of the DATE capture. -/
  matchDateTail (cs : List Char) : Option (List Char) := do
    let r ← matchLit (['-']) cs
    let (m, r) ← takeClassN goDigit 2 r
    let r ← matchLit (['-']) r
    let (d, _) ← takeClassN goDigit 2 r
    pure ('-' :: m ++ '-' :: d)

/-- Pattern `^\s*REM\s+YEAR\s+(\d{4})`. -/
def matchRemYear (line : List Char) : Option (List Char) := do
  let r ← matchRemKey (['Y', 'E', 'A', 'R']) line
  let (y, _) ← takeClassN goDigit 4 r
  pure y

/-- Pattern `^\s*REM\s+KEY\s+(.+)$` — shared shape of the GENRE and COMMENT
patterns: the capture is the non-empty remainder of the line. -/
def matchRemRest (kw : List Char) (line : List Char) : Option (List Char) := do
  let r ← matchRemKey kw line
  match r with
  | [] => none
  | _ => pure r

/-- Pattern `^\s*REM\s+DISCID\s+([A-Fa-f0-9]+)`. -/
def matchRemDiscID (line : List Char) : Option (List Char) := do
  let r ← matchRemKey (['D', 'I', 'S', 'C', 'I', 'D']) line
  let (cap, _) ← takeClass1 goHex r
  pure cap

/-- Pattern `^\s*REM\s+DISC(?:NUMBER)?\s+(\d+)(?:/(\d+))?`; the long `DISCNUMBER`
alternative is tried first (leftmost-first), and the optional `/total`
group is captured when present. -/
def matchRemDiscNumber (line : List Char) : Option (List Char × Option (List Char)) := do
  let r ← matchLit (['R', 'E', 'M']) (line.dropWhile goSpace)
  let r ← matchSpaces1 r
  let r ← matchLit (['D', 'I', 'S', 'C']) r
  let r ←
    match matchLit (['N', 'U', 'M', 'B', 'E', 'R']) r with
    | some r2 =>
      match matchSpaces1 r2 with
      | some r3 => some r3
      | none => matchSpaces1 r
    | none => matchSpaces1 r
  let (num, r) ← takeClass1 goDigit r
  match matchSlashTotal r with
  | some tot => pure (num, some tot)
  | none => pure (num, none)
where
  /-- The optional `/(\d+)` group. -/
  matchSlashTotal (cs : List Char) : Option (List Char) := do
    let r ← matchLit (['/']) cs
    let (tot, _) ← takeClass1 goDigit r
    pure tot

/-- Pattern `^\s*REM\s+([A-Z_][A-Z0-9_]*)\s+(.+)$` — the catch-all custom REM rule. -/
def matchRemCustom (line : List Char) : Option (List Char × List Char) := do
  let r ← matchLit (['R', 'E', 'M']) (line.dropWhile goSpace)
  let r ← matchSpaces1 r
  match r with
  | [] => none
  | c :: cs =>
    if goUpperUnd c then
      let key := c :: cs.takeWhile goUpperDigitUnd
      let r2 := cs.dropWhile goUpperDigitUnd
      match matchSpaces1 r2 with
      | some r3 =>
        match r3 with
        | [] => none
        | _ => pure (key, r3)
      | none => none
    else none

/-- The guard `strings.HasPrefix(strings.TrimSpace(line), "REM")` that routes
a line to `parseREMField`. -/
def isRemLine (line : List Char) : Bool :=
  (matchLit (['R', 'E', 'M']) (trimSpace line)).isSome

/-! ## Data model (`CueFile`, `Track`, `ParserConfig` in parser.go)

Captured regex groups are stored as `String`s; the filesystem fields
(`Path`, `RelativePath`, `FileName`) of the Go struct are set by the
directory walker, not by the parser, and are omitted.  The Go
`map[string]string` custom-field maps are modelled as association lists
with last-write-wins update. -/

/-- Struct `Track` of parser.go. -/
structure Track where
  number : Nat
  title : String := ""
  performer : String := ""
  composer : String := ""
  songwriter : String := ""
  isrc : String := ""
  index : String := ""
  preGap : String := ""
  customFields : List (String × String) := []
  deriving Repr, DecidableEq

/-- Struct `CueFile` of parser.go (metadata fields only). -/
structure CueFile where
  audioFile : String := ""
  audioFileType : String := ""
  album : String := ""
  performer : String := ""
  composer : String := ""
  songwriter : String := ""
  date : String := ""
  year : String := ""
  genre : String := ""
  comment : String := ""
  catalog : String := ""
  discID : String := ""
  discNumber : String := ""
  totalDiscs : String := ""
  tracks : List Track := []
  customFields : List (String × String) := []
  deriving Repr, DecidableEq

/-- Struct `ParserConfig` of parser.go. -/
structure ParserConfig where
  strictMode : Bool
  preserveEmptyFields : Bool
  parseCustomREM : Bool
  deriving Repr, DecidableEq

/-- Function `DefaultConfig` of parser.go. -/
def defaultConfig : ParserConfig :=
  { strictMode := false, preserveEmptyFields := false, parseCustomREM := true }

/-- Go map assignment `m[k] = v` on the association-list model. -/
def mapSet (m : List (String × String)) (k v : String) : List (String × String) :=
  if m.any (fun p => p.1 = k) then
    m.map (fun p => if p.1 = k then (k, v) else p)
  else m ++ [(k, v)]

/-- Go map lookup `m[k]` (second return value discarded, missing keys map
to the empty string, as in `GetCustomField`). -/
def mapGet (m : List (String × String)) (k : String) : String :=
  match m.lookup k with
  | some v => v
  | none => ""

/-! ## `parseREMField` (parser.go lines 344-413)

The Go function mutates the `CueFile` and returns an `error` that is `nil`
on every control path; the returned `Except` mirrors that error channel. -/

/-- The set of REM keys excluded from the custom-field map
(`knownFields` in parseREMField). -/
def knownFields : List String :=
  [("DATE"), ("YEAR"), ("GENRE"), ("COMMENT"), ("DISCID"), ("DISCNUMBER"), ("DISC")]

/-- The body of `parseREMField` after its opening
`line = strings.TrimSpace(line)`: recognise one REM remark line.  Every
branch of the Go function ends in `return nil`; the `Except.error`
constructor is therefore never produced. -/
def parseREMCore (l : List Char) (cue : CueFile) (config : ParserConfig) :
    Except String CueFile :=
  match matchRemDate l with
  | some d =>
    .ok { cue with
      date := String.mk d,
      year := if 4 ≤ d.length then String.mk (d.take 4) else cue.year }
  | none =>
  match matchRemYear l with
  | some y =>
    .ok { cue with
      year := String.mk y,
      date := if cue.date = "" then String.mk y else cue.date }
  | none =>
  match matchRemRest (['G', 'E', 'N', 'R', 'E']) l with
  | some g => .ok { cue with genre := String.mk (trimSpace g) }
  | none =>
  match matchRemRest (['C', 'O', 'M', 'M', 'E', 'N', 'T']) l with
  | some c => .ok { cue with comment := String.mk (trimSpace c) }
  | none =>
  match matchRemDiscID l with
  | some d => .ok { cue with discID := String.mk (trimSpace d) }
  | none =>
  match matchRemDiscNumber l with
  | some (num, tot) =>
    .ok { cue with
      discNumber := String.mk num,
      totalDiscs := match tot with | some t => String.mk t | none => cue.totalDiscs }
  | none =>
  if config.parseCustomREM then
    match matchRemCustom l with
    | some (k, v) =>
      -- key := ToUpper(TrimSpace(match 1)), value := TrimSpace(match 2);
      -- keys already recognised above are kept out of the custom map
      if knownFields.contains (strToUpper (String.mk (trimSpace k))) then .ok cue
      else
        .ok { cue with
          customFields :=
            mapSet cue.customFields (strToUpper (String.mk (trimSpace k)))
              (String.mk (trimSpace v)) }
    | none => .ok cue
  else .ok cue

/-- Function `parseREMField` (parser.go lines 344-413): trim the line, then apply
the REM recognition rules. -/
def parseREMField (line : String) (cue : CueFile) (config : ParserConfig) :
    Except String CueFile :=
  parseREMCore (trimSpace line.toList) cue config

/-! ## Line classification

`ParseWithConfig` tries the patterns on each line in a fixed order, the
first match winning; `LineKind` records that (mutually exclusive)
classification.  The track-local patterns (INDEX 01, INDEX 00, ISRC) are
only attempted by the Go code when a track is open, but none of them
overlaps an earlier pattern, so classifying first and dispatching on the
parser state afterwards is equivalent. -/

/-- The rule a line matches, in the order `ParseWithConfig` tries them. -/
inductive LineKind where
  | fileLine (name ty : String)
  | catalogLine (v : String)
  | remLine
  | performerLine (p : String)
  | composerLine (p : String)
  | songwriterLine (p : String)
  | titleLine (t : String)
  | trackLine
  | indexLine (t : String)
  | pregapLine (t : String)
  | isrcLine (v : String)
  | otherLine
  deriving Repr, DecidableEq

/-- Classify one line exactly as the `if`-chain of `ParseWithConfig` does. -/
def classifyCore (cs : List Char) : LineKind :=
  match matchFile cs with
  | some (name, ty) => .fileLine (String.mk name) (String.mk ty)
  | none =>
  match matchCatalog cs with
  | some v => .catalogLine (String.mk v)
  | none =>
  if isRemLine cs then .remLine
  else
  match matchKeyQuoted (['P', 'E', 'R', 'F', 'O', 'R', 'M', 'E', 'R']) cs with
  | some p => .performerLine (String.mk p)
  | none =>
  match matchKeyQuoted (['C', 'O', 'M', 'P', 'O', 'S', 'E', 'R']) cs with
  | some p => .composerLine (String.mk p)
  | none =>
  match matchKeyQuoted (['S', 'O', 'N', 'G', 'W', 'R', 'I', 'T', 'E', 'R']) cs with
  | some p => .songwriterLine (String.mk p)
  | none =>
  match matchKeyQuoted (['T', 'I', 'T', 'L', 'E']) cs with
  | some t => .titleLine (String.mk t)
  | none =>
  match matchTrack cs with
  | some _ => .trackLine
  | none =>
  match matchIndexKind (['0', '1']) cs with
  | some t => .indexLine (String.mk t)
  | none =>
  match matchIndexKind (['0', '0']) cs with
  | some t => .pregapLine (String.mk t)
  | none =>
  match matchIsrc cs with
  | some v => .isrcLine (String.mk v)
  | none => .otherLine

/-- Classification of one line of the sheet. -/
def classify (line : String) : LineKind :=
  classifyCore line.toList

/-! ## The parse loop (`ParseWithConfig`, parser.go lines 196-342) -/

/-- The loop state of `ParseWithConfig`: the `CueFile` under construction,
the open track (if any), the album-title flag and the album-default
performer. -/
structure PState where
  cue : CueFile
  currentTrack : Option Track
  albumSet : Bool
  albumPerformer : String
  deriving Repr, DecidableEq

/-- The state at the top of the loop. -/
def initPState : PState :=
  { cue := {}, currentTrack := none, albumSet := false, albumPerformer := "" }

/-- Function `fillTrackDefaults` (parser.go lines 415-420). -/
def fillTrackDefaults (track : Track) (albumPerformer : String) : Track :=
  if track.performer = "" then { track with performer := albumPerformer } else track

/-- Close the open track, if any: apply `fillTrackDefaults` and append it
to the album's track list (the shared code of the TRACK branch and the
end-of-input step). -/
def closeTrack (st : PState) : PState :=
  match st.currentTrack with
  | none => st
  | some t =>
    { st with
      cue := { st.cue with
        tracks := st.cue.tracks ++ [fillTrackDefaults t st.albumPerformer] },
      currentTrack := none }

/-- One iteration of the scanner loop of `ParseWithConfig`.  The only
mid-loop `return` is the strict-mode propagation of a `parseREMField`
error. -/
def processLine (config : ParserConfig) (st : PState) (line : String) :
    Except String PState :=
  match classify line with
  | .fileLine name ty =>
    .ok { st with cue := { st.cue with audioFile := name, audioFileType := ty } }
  | .catalogLine v =>
    .ok { st with cue := { st.cue with catalog := v } }
  | .remLine =>
    match parseREMField line st.cue config with
    | .ok cue2 => .ok { st with cue := cue2 }
    | .error e => if config.strictMode then .error e else .ok st
  | .performerLine p =>
    match st.currentTrack with
    | none =>
      if st.albumPerformer = "" then
        .ok { st with albumPerformer := p, cue := { st.cue with performer := p } }
      else .ok st
    | some tr => .ok { st with currentTrack := some { tr with performer := p } }
  | .composerLine p =>
    match st.currentTrack with
    | none => .ok { st with cue := { st.cue with composer := p } }
    | some tr => .ok { st with currentTrack := some { tr with composer := p } }
  | .songwriterLine p =>
    match st.currentTrack with
    | none => .ok { st with cue := { st.cue with songwriter := p } }
    | some tr => .ok { st with currentTrack := some { tr with songwriter := p } }
  | .titleLine t =>
    match st.currentTrack with
    | none =>
      if st.albumSet then .ok st
      else .ok { st with cue := { st.cue with album := t }, albumSet := true }
    | some tr => .ok { st with currentTrack := some { tr with title := t } }
  | .trackLine =>
    let st2 := closeTrack st
    .ok { st2 with
      currentTrack := some { number := st2.cue.tracks.length + 1, customFields := [] } }
  | .indexLine t =>
    match st.currentTrack with
    | none => .ok st
    | some tr => .ok { st with currentTrack := some { tr with index := t } }
  | .pregapLine t =>
    match st.currentTrack with
    | none => .ok st
    | some tr => .ok { st with currentTrack := some { tr with preGap := t } }
  | .isrcLine v =>
    match st.currentTrack with
    | none => .ok st
    | some tr => .ok { st with currentTrack := some { tr with isrc := v } }
  | .otherLine => .ok st

/-- The scanner loop over all lines of the sheet. -/
def runLines (config : ParserConfig) (st : PState) : List String → Except String PState
  | [] => .ok st
  | l :: ls =>
    match processLine config st l with
    | .ok st2 => runLines config st2 ls
    | .error e => .error e

/-! ## `Validate` (parser.go lines 422-444) -/

/-- The strict-mode validation errors of `Validate`, plus the (unreachable)
strict-mode REM line error of the scanner loop. -/
inductive CueError where
  | missingAudioFile
  | missingAlbumTitle
  | noTracks
  | missingTrackTitle (n : Nat)
  | missingTrackIndex (n : Nat)
  | remError (e : String)
  deriving Repr, DecidableEq

/-- The per-track half of `Validate`: the first track (1-based position `i`)
with an empty title or an empty index yields the corresponding error. -/
def validateTracks (i : Nat) : List Track → Option CueError
  | [] => none
  | t :: ts =>
    if t.title = "" then some (.missingTrackTitle i)
    else if t.index = "" then some (.missingTrackIndex i)
    else validateTracks (i + 1) ts

/-- Function `Validate`: `none` means the `CueFile` passed. -/
def validate (c : CueFile) : Option CueError :=
  if c.audioFile = "" then some .missingAudioFile
  else if c.album = "" then some .missingAlbumTitle
  else if c.tracks = [] then some .noTracks
  else validateTracks 1 c.tracks

/-- Function `ParseWithConfig` on the list of lines of the sheet text (the file
I/O wrapper is outside the model): run the scanner loop, close the last
open track, and validate in strict mode only. -/
def parseWithConfig (config : ParserConfig) (lines : List String) :
    Except CueError CueFile :=
  match runLines config initPState lines with
  | .error e => .error (.remError e)
  | .ok st =>
    let cue := (closeTrack st).cue
    if config.strictMode then
      match validate cue with
      | some e => .error e
      | none => .ok cue
    else .ok cue

/-- Function `GetTrack` (parser.go lines 477-483): Go `int` is modelled as `Int` so
that negative lookups are representable; the guard makes the 1-based index
safe before the slice access. -/
def getTrack (c : CueFile) (number : Int) : Option Track :=
  if number < 1 ∨ (c.tracks.length : Int) < number then none
  else c.tracks.get? (number - 1).toNat


/-! ## Timecode arithmetic (splitter.go, splitter_audio.go)

`convertCueTimeToSeconds` computes `minutes*60 + seconds + frames/75.0` in
`float64` and returns the string `fmt.Sprintf("%.3f", total)`;
`cueTimeToSample` parses that string back and truncates
`seconds * float64(sampleRate)` to `uint64`.  The model carries the exact
integer of thousandths encoded in the seconds string:

* with `N = (minutes*60 + seconds)*75 + frames`, the exact seconds are
  `N/75`, so the string holds `round(N*1000/75) = round(40*N/3)`
  thousandths, computed exactly as `(80*N + 3) / 6` in natural division
  (floor of `40*N/3 + 1/2`) — see the bridging theorem
  `cueTimeMillis_eq_round` below;
* the fractional part of `40*N/3` is `0`, `1/3` or `2/3`, never near `1/2`,
  and for timecodes of realistic magnitude (minutes below circa 10⁹) the
  accumulated `float64` error is far smaller than the distance to the
  rounding boundary, so the double-precision `%.3f` of the Go code and the
  exact rational rounding agree and no tie-breaking rule is exercised;
* `uint64(x)` truncates toward zero, so the sample index is
  `millis * rate / 1000` in natural division — see
  `cueTimeToSample_eq_floor` below. -/

/-- Model of `fmt.Sscanf(s, "%d", &n)` on a segment: the value of the leading digit
run (after leading spaces); a segment with no leading digits leaves the
variable at zero. -/
def parseIntPrefix (cs : List Char) : Nat :=
  ((cs.dropWhile goSpace).takeWhile goDigit).foldl
    (fun acc c => acc * 10 + (c.toNat - ('0').toNat)) 0

/-- Model of `strings.Split(s, ":")`. -/
def splitColon : List Char → List (List Char)
  | [] => [[]]
  | c :: rest =>
    let r := splitColon rest
    if c = ':' then [] :: r
    else
      match r with
      | g :: gs => (c :: g) :: gs
      | [] => [[c]]

/-- The number of thousandths of a second encoded in the string returned by
`convertCueTimeToSeconds` (splitter.go lines 88-101).  A malformed timecode
(segment count ≠ 3) yields the string `"0"`, i.e. zero thousandths. -/
def cueTimeMillis (cueTime : String) : Nat :=
  match splitColon cueTime.toList with
  | [m, s, f] =>
    (80 * ((parseIntPrefix m * 60 + parseIntPrefix s) * 75 + parseIntPrefix f) + 3) / 6
  | _ => 0

/-- The numeric value of the seconds string returned by
`convertCueTimeToSeconds`. -/
def convertCueTimeToSeconds (cueTime : String) : ℚ :=
  (cueTimeMillis cueTime : ℚ) / 1000

/-- Function `cueTimeToSample` (splitter_audio.go lines 230-234): `parseFloat` of the
seconds string times the sample rate, converted to `uint64` (truncation
toward zero): `⌊(millis/1000) * rate⌋ = millis * rate / 1000`. -/
def cueTimeToSample (cueTime : String) (sampleRate : Nat) : Nat :=
  cueTimeMillis cueTime * sampleRate / 1000

/-- Modelled from the spec: `to_seconds(timecode) = minutes*60 + seconds +
frames/75.0`, the exact second count of a well-formed timecode. -/
def to_secondsSpec (m s f : Nat) : ℚ :=
  (m * 60 + s : ℚ) + (f : ℚ) / 75

/-- Modelled from the spec: `to_sample(timecode, sample_rate) =
round(to_seconds(timecode) * sample_rate)` — the nearest-integer rounding
the spec demands, the comparison point for the refinement claim about
`cueTimeToSample`. -/
def to_sampleSpec (m s f rate : Nat) : ℤ :=
  round (to_secondsSpec m s f * rate)

/-! ## The full in-process splitting engine (`SplitWithGoAudio`)

The decoded source is abstracted by its per-channel sample count
`totalSamples` (= `len(samples[ch])` for every channel) and `sampleRate`;
the claims under verification are about which sample ranges are produced,
skipped, or crash the loop, not about the sample values themselves. -/

/-- Per-track start/end samples exactly as the loop header computes them:
`start` from the track's own INDEX 01, `end` from the next track's INDEX 01,
and `totalSamples` for the last track. -/
def trackRanges (rate total : Nat) : List Track → List (Track × Nat × Nat)
  | [] => []
  | [t] => [(t, cueTimeToSample t.index rate, total)]
  | t :: t2 :: ts =>
    (t, cueTimeToSample t.index rate, cueTimeToSample t2.index rate) ::
      trackRanges rate total (t2 :: ts)

/-- Outcome of one iteration of the `SplitWithGoAudio` track loop. -/
inductive TrackOutcome where
  /-- Case `startSample >= totalSamples`: warning logged, track skipped. -/
  | outOfRange
  /-- Case where `encodeFlac` rejected an empty sample slice: warning logged, track
  skipped. -/
  | encodeFailed
  /-- The track was encoded from the half-open sample range `[s, e)`. -/
  | ok (s e : Nat)
  deriving Repr, DecidableEq

/-- One iteration of the track loop of `SplitWithGoAudio` (lines 57-97):
the out-of-range guard, the end clamp, `extractSampleRange` and
`encodeFlac`.  `none` models the Go runtime panic of the slice expression
`samples[ch][start:end]` in `extractSampleRange` when `start > end` after
clamping — the loop (and the whole split) dies there. -/
def goSplitStep (total s e : Nat) : Option TrackOutcome :=
  if total ≤ s then some .outOfRange
  else
    let e2 := min e total
    if s ≤ e2 then
      if e2 = s then some .encodeFailed else some (.ok s e2)
    else none

/-- Run the track loop over the resolved ranges: per-track outcomes in CUE
order, plus a flag recording whether a slice panic aborted the loop (the
outcomes of the remaining tracks are then missing). -/
def runRanges (total : Nat) : List (Track × Nat × Nat) → List (Nat × TrackOutcome) × Bool
  | [] => ([], false)
  | (t, s, e) :: rest =>
    match goSplitStep total s e with
    | none => ([], true)
    | some o =>
      let (l, ab) := runRanges total rest
      ((t.number, o) :: l, ab)

/-- Function `SplitWithGoAudio` on an album's track list against a decoded source
with the given sample rate and per-channel sample count. -/
def splitWithGoAudio (tracks : List Track) (rate total : Nat) :
    List (Nat × TrackOutcome) × Bool :=
  runRanges total (trackRanges rate total tracks)

/-- The non-panic outcome of one track-loop iteration, defined whenever the
range cannot trip the slice panic. -/
def trackOutcomeNoPanic (total s e : Nat) : TrackOutcome :=
  if total ≤ s then .outOfRange
  else if min e total = s then .encodeFailed
  else .ok s (min e total)

/-! ## The hybrid strategy (`SplitWithGoAudioSimple`, lines 245-289) -/

/-- The validation loop of `SplitWithGoAudioSimple`: the first track whose
start time strictly exceeds the total duration makes the whole function
return an error.  The Go comparison `trackStart > totalDuration` between
`millis/1000` and `totalSamples/sampleRate` is carried out here in the
equivalent cross-multiplied integer form `millis * rate > total * 1000`
(for `rate = 0` Go compares against `+Inf` or `NaN`, both yielding
`false`, as does the integer form). -/
def splitSimpleValidate (rate total : Nat) : List Track → Option Nat
  | [] => none
  | t :: ts =>
    if total * 1000 < cueTimeMillis t.index * rate then some t.number
    else splitSimpleValidate rate total ts

/-- Function `SplitWithGoAudioSimple`: validate every track's start against the
total duration, then hand the whole album to the external splitter (which
attempts every track); an error from validation aborts the album with no
output at all. -/
def splitWithGoAudioSimple (tracks : List Track) (rate total : Nat) :
    Except Nat (List Nat) :=
  match splitSimpleValidate rate total tracks with
  | some n => .error n
  | none => .ok (tracks.map (fun t => t.number))

/-! ## Tag writing (`writeFlacTags`, splitter_external.go lines 162-232)

Modelled as the list of `(key, value)` vorbis comments the function adds
after clearing the block (`cmts.Comments = nil` followed by the `cmts.Add`
calls); the surrounding FLAC file I/O is outside the model. -/

/-- The tag set `writeFlacTags` writes for one track. -/
def writeFlacTags (cue : CueFile) (track : Track) (trackNum : Nat) :
    List (String × String) :=
  [(("TITLE"), track.title),
   (("ARTIST"), track.performer),
   (("ALBUM"), cue.album),
   (("PERFORMER"), cue.performer),
   (("TRACKNUMBER"), toString trackNum),
   (("TOTALTRACKS"), toString cue.tracks.length)] ++
  (if cue.date ≠ "" then [(("DATE"), cue.date)] else []) ++
  (if cue.genre ≠ "" then [(("GENRE"), cue.genre)] else []) ++
  (if cue.comment ≠ "" then [(("DESCRIPTION"), cue.comment)] else []) ++
  (if cue.catalog ≠ "" then [(("CATALOG"), cue.catalog)] else []) ++
  (if cue.discID ≠ "" then [(("DISCID"), cue.discID)] else [])

/-- The eleven keys `writeFlacTags` can produce. -/
def standardTagKeys : List String :=
  [("TITLE"), ("ARTIST"), ("ALBUM"), ("PERFORMER"), ("TRACKNUMBER"),
   ("TOTALTRACKS"), ("DATE"), ("GENRE"), ("DESCRIPTION"), ("CATALOG"), ("DISCID")]


/-! ## Derived definitions used by the statements -/

/-- The `CueFile` assembled by the scanner loop (the error branch is
unreachable, see `runLines_isOk`). -/
def parsedCue (config : ParserConfig) (lines : List String) : CueFile :=
  match runLines config initPState lines with
  | .ok st => (closeTrack st).cue
  | .error _ => (closeTrack initPState).cue

/-- The name and type captures of the last line of the sheet that matches
the FILE pattern, if any (each FILE line overwrites the previous one in the
code, so the last one is what survives). -/
def lastFileDecl : List String → Option (String × String)
  | [] => none
  | l :: ls =>
    match lastFileDecl ls with
    | some x => some x
    | none =>
      match classify l with
      | .fileLine name ty => some (name, ty)
      | _ => none

/-- The capture of the first performer line occurring before any track
line (the album-default performer the spec describes), or `""` when there
is none. -/
def firstPreTrackPerformer : List String → String
  | [] => ""
  | l :: ls =>
    match classify l with
    | .trackLine => ""
    | .performerLine p => p
    | _ => firstPreTrackPerformer ls

/-- Modelled from the spec (§4.1): the performer bookkeeping of the parser
alone — the album-default performer is captured once, first pre-track
assignment wins; each track records its own last performer line; at track
close an empty performer is replaced by the album default.  Used as the
comparison point for the refinement statement about the full parser. -/
structure PerfScan where
  firstPerf : String
  cur : Option String
  done : List String

/-- One line of the performer bookkeeping (classified by the same
first-match-wins rule order as the parser). -/
def perfStep (sc : PerfScan) (line : String) : PerfScan :=
  match classify line with
  | .performerLine p =>
    match sc.cur with
    | none => if sc.firstPerf = "" then { sc with firstPerf := p } else sc
    | some _ => { sc with cur := some p }
  | .trackLine =>
    match sc.cur with
    | none => { sc with cur := some ("") }
    | some c =>
      { sc with
        done := sc.done ++ [if c = "" then sc.firstPerf else c],
        cur := some ("") }
  | _ => sc

/-- The performer bookkeeping over a list of lines. -/
def perfScan (sc : PerfScan) : List String → PerfScan
  | [] => sc
  | l :: ls => perfScan (perfStep sc l) ls

/-- Close the last open track of the performer bookkeeping. -/
def perfFinish (sc : PerfScan) : List String :=
  match sc.cur with
  | none => sc.done
  | some c => sc.done ++ [if c = "" then sc.firstPerf else c]

/-- The initial performer bookkeeping state. -/
def initPerfScan : PerfScan :=
  { firstPerf := "", cur := none, done := [] }

/-- Equality of `Except` results is decidable (needed to evaluate the
parser and splitter models on concrete inputs). -/
instance exceptDecEq {ε α : Type} [DecidableEq ε] [DecidableEq α] :
    DecidableEq (Except ε α) := fun x y =>
  match x, y with
  | .ok a, .ok b =>
    if h : a = b then isTrue (by rw [h])
    else isFalse (fun hc => h (Except.ok.inj hc))
  | .error a, .error b =>
    if h : a = b then isTrue (by rw [h])
    else isFalse (fun hc => h (Except.error.inj hc))
  | .ok _, .error _ => isFalse (fun hc => Except.noConfusion hc)
  | .error _, .ok _ => isFalse (fun hc => Except.noConfusion hc)

/-! ## Concrete sheets and albums used by the evaluations -/

/-- The two-track sheet of the spec's worked example (§8): album
`"Test Album"`, performer `"Band A"`, tracks at `00:00:00` and `03:00:00`,
the second track without a performer of its own. -/
def exampleSheet : List String :=
  [("TITLE \"Test Album\""),
   ("PERFORMER \"Band A\""),
   ("FILE \"test.flac\" WAVE"),
   ("  TRACK 01 AUDIO"),
   ("    TITLE \"One\""),
   ("    INDEX 01 00:00:00"),
   ("  TRACK 02 AUDIO"),
   ("    TITLE \"Two\""),
   ("    INDEX 01 03:00:00")]

/-- A sheet with two FILE declaration lines. -/
def twoFileSheet : List String :=
  [("FILE \"a.flac\" WAVE"),
   ("FILE \"b.flac\" FLAC"),
   ("TITLE \"X\""),
   ("  TRACK 01 AUDIO"),
   ("    TITLE \"One\""),
   ("    INDEX 01 00:00:00")]

/-- A sheet whose custom REM field `MOOD` is collected by the parser. -/
def customFieldSheet : List String :=
  [("TITLE \"X\""),
   ("PERFORMER \"P\""),
   ("FILE \"x.flac\" WAVE"),
   ("REM MOOD Energetic"),
   ("  TRACK 01 AUDIO"),
   ("    TITLE \"One\""),
   ("    INDEX 01 00:00:00")]

/-- Two tracks whose INDEX 01 timecodes are non-monotonic: track 2 starts
(at 1 min) before track 1 (at 2 min). -/
def nonMonotonicTracks : List Track :=
  [{ number := 1, title := ("One"), index := ("02:00:00") },
   { number := 2, title := ("Two"), index := ("01:00:00") }]

/-- Two tracks of which the first starts far beyond a 10-second source
(99 min) and the second is in range (at 0). -/
def outOfRangeTracks : List Track :=
  [{ number := 1, title := ("One"), index := ("99:00:00") },
   { number := 2, title := ("Two"), index := ("00:00:00") }]

/-- The correspondence between the scanner-loop state and the performer
bookkeeping: same album-default performer, same album performer, same
performers of the closed tracks, and same performer of the open track. -/
def perfCorr (st : PState) (sc : PerfScan) : Prop :=
  st.albumPerformer = sc.firstPerf ∧
  st.cue.performer = sc.firstPerf ∧
  st.cue.tracks.map (fun t => t.performer) = sc.done ∧
  st.currentTrack.map (fun t => t.performer) = sc.cur

/-- A sheet with two album-level performer lines and a track without a
performer of its own. -/
def doublePerformerSheet : List String :=
  [("PERFORMER \"First\""),
   ("PERFORMER \"Second\""),
   ("  TRACK 01 AUDIO"),
   ("    TITLE \"One\""),
   ("    INDEX 01 00:00:00")]

/-! ## Helper lemmas -/

/-- Lemma: `parseREMField` ends every control path in `return nil`: the error
constructor is never produced. -/
theorem parseREMField_isOk (line : String) (cue : CueFile) (config : ParserConfig) :
    ∃ c, parseREMField line cue config = Except.ok c := by
  unfold parseREMField parseREMCore
  repeat' split
  all_goals exact ⟨_, rfl⟩

/-- Lemma: `parseREMField` only writes the date / year / genre / comment / disc /
custom-field metadata: the audio-file reference, the performer fields and
the track list pass through untouched. -/
theorem parseREMField_preserves (line : String) (cue : CueFile) (config : ParserConfig)
    (c : CueFile) (h : parseREMField line cue config = Except.ok c) :
    c.audioFile = cue.audioFile ∧ c.audioFileType = cue.audioFileType ∧
      c.performer = cue.performer ∧ c.tracks = cue.tracks := by
  unfold parseREMField parseREMCore at h
  repeat' split at h
  all_goals simp only [Except.ok.injEq] at h
  all_goals subst h
  all_goals simp

/-- No iteration of the scanner loop can fail: the only mid-loop `return`
is the strict-mode propagation of a `parseREMField` error, and
`parseREMField` never errors. -/
theorem processLine_isOk (config : ParserConfig) (st : PState) (line : String) :
    ∃ st2, processLine config st line = Except.ok st2 := by
  unfold processLine
  repeat' split
  all_goals first
    | exact ⟨_, rfl⟩
    | (rename_i hrem _; exact absurd hrem (by
        obtain ⟨c, hc⟩ := parseREMField_isOk line st.cue config
        simp [hc]))

/-- The scanner loop never fails. -/
theorem runLines_isOk (config : ParserConfig) (lines : List String) (st : PState) :
    ∃ st2, runLines config st lines = Except.ok st2 := by
  induction lines generalizing st with
  | nil => exact ⟨st, rfl⟩
  | cons l ls ih =>
    obtain ⟨st2, h2⟩ := processLine_isOk config st l
    obtain ⟨st3, h3⟩ := ih st2
    exact ⟨st3, by simp [runLines, h2, h3]⟩

/-- Non-strict parsing always succeeds and returns the assembled album. -/
theorem parseWithConfig_nonstrict (config : ParserConfig) (lines : List String)
    (h : config.strictMode = false) :
    parseWithConfig config lines = Except.ok (parsedCue config lines) := by
  obtain ⟨st, hst⟩ := runLines_isOk config lines initPState
  simp [parseWithConfig, parsedCue, hst, h]

/-- Strict parsing gates the assembled album through `validate`. -/
theorem parseWithConfig_strict (config : ParserConfig) (lines : List String)
    (h : config.strictMode = true) :
    parseWithConfig config lines =
      (match validate (parsedCue config lines) with
       | some e => Except.error e
       | none => Except.ok (parsedCue config lines)) := by
  obtain ⟨st, hst⟩ := runLines_isOk config lines initPState
  simp only [parseWithConfig, parsedCue, hst, h, if_true]

/-- Any successful parse returns the assembled album. -/
theorem parseWithConfig_ok (config : ParserConfig) (lines : List String) (cue : CueFile)
    (h : parseWithConfig config lines = Except.ok cue) : cue = parsedCue config lines := by
  cases hs : config.strictMode
  · rw [parseWithConfig_nonstrict config lines hs] at h
    injection h with h2
    exact h2.symm
  · rw [parseWithConfig_strict config lines hs] at h
    split at h
    · cases h
    · injection h with h2
      exact h2.symm

-- End-to-end sanity check of the parser model on the worked example.
example :
    parsedCue defaultConfig exampleSheet =
      { audioFile := ("test.flac"), audioFileType := ("WAVE"),
        album := ("Test Album"), performer := ("Band A"),
        tracks :=
          [{ number := 1, title := ("One"), performer := ("Band A"),
             index := ("00:00:00") },
           { number := 2, title := ("Two"), performer := ("Band A"),
             index := ("03:00:00") }] } := by
  decide

-- Sanity checks on the matchers (concrete evaluations).
example : (matchFile (("  FILE \"a.flac\" WAVE").toList)).isSome = true := by decide
example : matchKeyQuoted (['T', 'I', 'T', 'L', 'E']) (("TITLE \"Test Album\"").toList)
    = some (("Test Album").toList) := by decide
example : matchTrack (("  TRACK 01 AUDIO").toList) = some (['0', '1']) := by decide
example : matchIndexKind (['0', '1']) (("    INDEX 01 03:00:00").toList)
    = some (("03:00:00").toList) := by decide
example : matchIndexKind (['0', '1']) (("    INDEX 00 03:00:00").toList) = none := by decide
example : matchRemDate (("REM DATE 1999-04-01").toList) = some (("1999-04-01").toList) := by
  decide
example : matchRemCustom (("REM MOOD Energetic").toList)
    = some (("MOOD").toList, ("Energetic").toList) := by decide
example : isRemLine (("  REM GENRE Rock").toList) = true := by decide

-- Sanity checks on the arithmetic (concrete evaluations).
example : cueTimeMillis ("03:00:00") = 180000 := by decide
example : cueTimeToSample ("03:00:00") 44100 = 7938000 := by decide
example : cueTimeToSample ("00:00:01") 44100 = 573 := by decide
example : cueTimeMillis ("bogus") = 0 := by decide
example : to_sampleSpec 0 0 1 44100 = 588 := by
  have : to_secondsSpec 0 0 1 * (44100 : ℕ) = 588 := by
    norm_num [to_secondsSpec]
  rw [to_sampleSpec, this]
  norm_num

/-! ## Claim C6 -/

/-- C6: parsing the worked-example sheet (album "Test Album", performer
"Band A", tracks at 00:00:00 and 03:00:00) and resolving it against a
44100 Hz source of 15876000 samples yields range [0, 7938000) for track 1
and [7938000, 15876000) for track 2 — the latter ending at the total
sample count — and track 2 inherits performer "Band A". -/
theorem exampleSheet_resolution :
    (parseWithConfig defaultConfig exampleSheet).map
        (fun cue =>
          ((trackRanges 44100 15876000 cue.tracks).map (fun r => (r.2.1, r.2.2)),
           cue.tracks.map (fun t => t.performer))) =
      Except.ok ([(0, 7938000), (7938000, 15876000)], [("Band A"), ("Band A")]) := by
  decide

/-! ## Claim C9 -/

/-- C9: `GetTrack` returns the track at 1-based position `n` whenever
`1 ≤ n ≤ track count` and `none` for every `n` below 1 or above the track
count; the list access happens only under the bounds guard. -/
theorem getTrack_safe (c : CueFile) (n : Int) :
    ((n < 1 ∨ (c.tracks.length : Int) < n) → getTrack c n = none) ∧
    (1 ≤ n → n ≤ (c.tracks.length : Int) →
      ∃ t, getTrack c n = some t ∧ c.tracks.get? (n - 1).toNat = some t) := by
  constructor
  · intro h
    simp only [getTrack, if_pos h]
  · intro h1 h2
    have hc : ¬(n < 1 ∨ (c.tracks.length : Int) < n) := by
      push_neg
      exact ⟨h1, h2⟩
    have hlt : (n - 1).toNat < c.tracks.length := by omega
    refine ⟨c.tracks.get ⟨(n - 1).toNat, hlt⟩, ?_, List.get?_eq_get hlt⟩
    rw [getTrack, if_neg hc]
    exact List.get?_eq_get hlt

/-- Witness for C9 at concrete inputs: an out-of-bounds lookup on an empty
album and an in-bounds lookup on a one-track album. -/
theorem getTrack_safe_witness :
    getTrack { tracks := [] } 5 = none ∧
    (∃ t, getTrack { tracks := [{ number := 1 }] } 1 = some t ∧
      ({ tracks := [{ number := 1 }] } : CueFile).tracks.get?
        ((1 : Int) - 1).toNat = some t) :=
  ⟨(getTrack_safe { tracks := [] } 5).1 (by decide),
   (getTrack_safe { tracks := [{ number := 1 }] } 1).2 (by decide) (by decide)⟩

/-! ## Claim C10 -/

/-- C10: `parseREMField` returns no error on any input line, so the
strict-mode per-line REM error branch of the scanner loop is unreachable
and the loop itself never fails — parsing can only fail at end-of-parse
strict validation (or at file I/O, outside this model). -/
theorem parseREMField_never_errors :
    (∀ (line : String) (cue : CueFile) (config : ParserConfig),
      ∃ c, parseREMField line cue config = Except.ok c) ∧
    (∀ (config : ParserConfig) (st : PState) (lines : List String),
      ∃ st2, runLines config st lines = Except.ok st2) :=
  ⟨parseREMField_isOk, fun config st lines => runLines_isOk config lines st⟩

/-! ## Claim C2 -/

/-- C2: evaluation at the failing input.  Two tracks with non-monotonic
indices 02:00:00 and 01:00:00 against a 44100 Hz source of 26460000
samples (10 minutes): track 1's range is inverted (start 5292000, end
2646000), the slice in `extractSampleRange` panics (`true` flag), the
loop aborts, and **no** per-track outcome is produced — track 2 is never
processed, contradicting the claim that an inverted range is a failure of
that track only with the remaining tracks still processed. -/
theorem splitWithGoAudio_panics_on_inverted :
    splitWithGoAudio nonMonotonicTracks 44100 26460000 = ([], true) ∧
    trackRanges 44100 26460000 nonMonotonicTracks =
      [(nonMonotonicTracks.headD { number := 1 }, 5292000, 2646000),
       ({ number := 2, title := ("Two"), index := ("01:00:00") }, 2646000, 26460000)] := by
  decide

/-! ## Claim C1: counterexample -/

/-- C1 fails on the code: the parser collects the custom REM field
`MOOD = Energetic` into the album's custom-field map, yet the tag set
written by `writeFlacTags` for the album's track consists of the six
always-present keys only — no custom field is ever written. -/
theorem writeFlacTags_drops_custom_fields :
    (parseWithConfig defaultConfig customFieldSheet).map
        (fun cue =>
          (mapGet cue.customFields ("MOOD"),
           (writeFlacTags cue (cue.tracks.headD { number := 1 }) 1).map Prod.fst)) =
      Except.ok (("Energetic"),
        [("TITLE"), ("ARTIST"), ("ALBUM"), ("PERFORMER"),
         ("TRACKNUMBER"), ("TOTALTRACKS")]) := by
  decide

/-! ## Claim C3: counterexample -/

/-- C3 fails on the code: after parsing a sheet with FILE lines
`a.flac WAVE` followed by `b.flac FLAC`, the album's audio file is the
**second** declaration — every FILE line overwrites the previous one,
so the last, not the first, is honored. -/
theorem parse_last_file_wins :
    (parseWithConfig defaultConfig twoFileSheet).map
        (fun cue => (cue.audioFile, cue.audioFileType)) =
      Except.ok (("b.flac"), ("FLAC")) ∧
    (("b.flac"), ("FLAC")) ≠ ((("a.flac") : String), (("WAVE") : String)) := by
  constructor
  · decide
  · decide

/-! ## Claim C4: counterexample -/

/-- C4 fails on the code: for the timecode `00:00:01` (1 CD frame = 1/75 s)
at 44100 Hz the code yields sample 573 — the `%.3f` formatting rounds
1/75 = 0.01333… to 0.013 and `uint64(0.013 * 44100) = uint64(573.3)`
truncates — while `round(to_seconds * rate) = round(588) = 588` as the
claim demands. -/
theorem cueTimeToSample_is_not_round :
    cueTimeToSample ("00:00:01") 44100 = 573 ∧
    to_sampleSpec 0 0 1 44100 = 588 ∧ (573 : Int) ≠ 588 := by
  refine ⟨by decide, ?_, by decide⟩
  have h : to_secondsSpec 0 0 1 * ((44100 : Nat) : ℚ) = 588 := by
    norm_num [to_secondsSpec]
  rw [to_sampleSpec, h]
  norm_num

/-! ## Claim C5: counterexample -/

/-- C5 fails on the code: in the hybrid strategy
(`SplitWithGoAudioSimple`), a first track starting at 99 minutes against a
10-second source makes the whole album split return an error before any
track is handed to the external splitter — the in-range second track
(start sample 0 < 441000) produces no output, although the claim demands
that an out-of-range track be non-fatal in each splitting strategy. -/
theorem splitSimple_aborts_whole_album :
    splitWithGoAudioSimple outOfRangeTracks 44100 441000 = Except.error 1 ∧
    cueTimeToSample ("00:00:00") 44100 < 441000 := by
  decide

/-! ## Claim C1: amended -/

/-- Membership in the keys of an if-gated singleton tag. -/
theorem mem_map_fst_ite_singleton (c : Prop) [Decidable c] (a b k : String) :
    (k ∈ (List.map Prod.fst (if c then [(a, b)] else []))) ↔ (c ∧ k = a) := by
  split <;> simp_all

/-- C1 (amended): the tag set written per track always contains TITLE
(track title), ARTIST (track performer), ALBUM, PERFORMER (album
performer), TRACKNUMBER and TOTALTRACKS; contains DATE, GENRE,
DESCRIPTION, CATALOG and DISCID exactly when the corresponding album
field is non-empty; and contains no key outside the eleven standard ones —
in particular no custom field collected by the Parser is ever written. -/
theorem writeFlacTags_standard_only (cue : CueFile) (track : Track) (n : Nat) :
    ((("TITLE"), track.title) ∈ writeFlacTags cue track n ∧
     (("ARTIST"), track.performer) ∈ writeFlacTags cue track n ∧
     (("ALBUM"), cue.album) ∈ writeFlacTags cue track n ∧
     (("PERFORMER"), cue.performer) ∈ writeFlacTags cue track n ∧
     (("TRACKNUMBER"), toString n) ∈ writeFlacTags cue track n ∧
     (("TOTALTRACKS"), toString cue.tracks.length) ∈ writeFlacTags cue track n) ∧
    ((("DATE") ∈ (writeFlacTags cue track n).map Prod.fst ↔ cue.date ≠ ("")) ∧
     (("GENRE") ∈ (writeFlacTags cue track n).map Prod.fst ↔ cue.genre ≠ ("")) ∧
     (("DESCRIPTION") ∈ (writeFlacTags cue track n).map Prod.fst ↔ cue.comment ≠ ("")) ∧
     (("CATALOG") ∈ (writeFlacTags cue track n).map Prod.fst ↔ cue.catalog ≠ ("")) ∧
     (("DISCID") ∈ (writeFlacTags cue track n).map Prod.fst ↔ cue.discID ≠ (""))) ∧
    (∀ k ∈ (writeFlacTags cue track n).map Prod.fst, k ∈ standardTagKeys) := by
  refine ⟨⟨?_, ?_, ?_, ?_, ?_, ?_⟩, ⟨?_, ?_, ?_, ?_, ?_⟩, ?_⟩
  · simp [writeFlacTags]
  · simp [writeFlacTags]
  · simp [writeFlacTags]
  · simp [writeFlacTags]
  · simp [writeFlacTags]
  · simp [writeFlacTags]
  · simp [writeFlacTags, mem_map_fst_ite_singleton]
  · simp [writeFlacTags, mem_map_fst_ite_singleton]
  · simp [writeFlacTags, mem_map_fst_ite_singleton]
  · simp [writeFlacTags, mem_map_fst_ite_singleton]
  · simp [writeFlacTags, mem_map_fst_ite_singleton]
  · intro k hk
    simp only [writeFlacTags, List.map_append, List.mem_append,
      mem_map_fst_ite_singleton, List.map_cons, List.map_nil, List.mem_cons,
      List.not_mem_nil, or_false] at hk
    simp only [standardTagKeys, List.mem_cons, List.not_mem_nil, or_false]
    tauto

/-- Witness for C1 (amended) at a concrete album: DATE is present when the
date field is non-empty, and absent when it is empty. -/
theorem writeFlacTags_standard_only_witness :
    ("DATE") ∈ (writeFlacTags { date := ("1999") } { number := 1 } 1).map Prod.fst ∧
    ¬ (("DATE") ∈ (writeFlacTags { genre := ("Rock") } { number := 1 } 1).map Prod.fst) :=
  ⟨((writeFlacTags_standard_only { date := ("1999") } { number := 1 } 1).2.1.1).mpr
      (by decide),
   fun h =>
     (by decide : ¬ ((("") : String) ≠ ("")))
       (((writeFlacTags_standard_only { genre := ("Rock") } { number := 1 } 1).2.1.1).mp h)⟩

/-! ## Claim C8 -/

/-- The per-track half of `Validate` succeeds exactly when every track has
a title and an index. -/
theorem validateTracks_none_iff (i : Nat) (ts : List Track) :
    validateTracks i ts = none ↔ ∀ t ∈ ts, t.title ≠ ("") ∧ t.index ≠ ("") := by
  induction ts generalizing i with
  | nil => simp [validateTracks]
  | cons t ts ih =>
    by_cases ht : t.title = ("") <;> by_cases hx : t.index = ("") <;>
      simp_all [validateTracks, ih (i + 1)]

/-- C8: strict parsing fails exactly when a required field is missing —
no file declaration, no album title, empty track list, or a track with an
empty title or index — with the corresponding error in the code's priority
order; non-strict parsing returns the assembled album without performing
any of these checks. -/
theorem strict_validation_exact (config : ParserConfig) (lines : List String) :
    (∀ c : CueFile, validate c = none ↔
      (c.audioFile ≠ ("") ∧ c.album ≠ ("") ∧ c.tracks ≠ [] ∧
        ∀ t ∈ c.tracks, t.title ≠ ("") ∧ t.index ≠ (""))) ∧
    (∀ c : CueFile, c.audioFile = ("") → validate c = some CueError.missingAudioFile) ∧
    (∀ c : CueFile, c.audioFile ≠ ("") → c.album = ("") →
      validate c = some CueError.missingAlbumTitle) ∧
    (∀ c : CueFile, c.audioFile ≠ ("") → c.album ≠ ("") → c.tracks = [] →
      validate c = some CueError.noTracks) ∧
    (∀ (i : Nat) (t : Track) (ts : List Track), t.title = ("") →
      validateTracks i (t :: ts) = some (CueError.missingTrackTitle i)) ∧
    (∀ (i : Nat) (t : Track) (ts : List Track), t.title ≠ ("") → t.index = ("") →
      validateTracks i (t :: ts) = some (CueError.missingTrackIndex i)) ∧
    (config.strictMode = false →
      parseWithConfig config lines = Except.ok (parsedCue config lines)) ∧
    (config.strictMode = true →
      ((parseWithConfig config lines = Except.ok (parsedCue config lines) ↔
          validate (parsedCue config lines) = none) ∧
       (∀ e, parseWithConfig config lines = Except.error e ↔
          validate (parsedCue config lines) = some e))) := by
  refine ⟨?_, ?_, ?_, ?_, ?_, ?_, parseWithConfig_nonstrict config lines, ?_⟩
  · intro c
    unfold validate
    split_ifs <;> simp_all [validateTracks_none_iff]
  · intro c hc
    simp [validate, hc]
  · intro c hc ha
    simp [validate, hc, ha]
  · intro c hc ha ht
    simp [validate, hc, ha, ht]
  · intro i t ts ht
    simp [validateTracks, ht]
  · intro i t ts ht hx
    simp [validateTracks, ht, hx]
  · intro hs
    rw [parseWithConfig_strict config lines hs]
    refine ⟨?_, ?_⟩
    · cases hv : validate (parsedCue config lines) with
      | none => simp
      | some e => simp
    · intro e
      cases hv : validate (parsedCue config lines) with
      | none => simp
      | some e2 => simp [eq_comm]

/-- Witness for C8 at concrete inputs: strict parsing of an empty sheet
fails with the missing-file error, and non-strict parsing of the same
sheet succeeds. -/
theorem strict_validation_exact_witness :
    parseWithConfig
        { strictMode := true, preserveEmptyFields := false, parseCustomREM := true } [] =
      Except.error CueError.missingAudioFile ∧
    parseWithConfig
        { strictMode := false, preserveEmptyFields := false, parseCustomREM := true } [] =
      Except.ok (parsedCue
        { strictMode := false, preserveEmptyFields := false, parseCustomREM := true } []) :=
  ⟨((strict_validation_exact
        { strictMode := true, preserveEmptyFields := false, parseCustomREM := true }
        []).2.2.2.2.2.2.2 rfl).2 CueError.missingAudioFile |>.mpr (by decide),
   (strict_validation_exact
        { strictMode := false, preserveEmptyFields := false, parseCustomREM := true }
        []).2.2.2.2.2.2.1 rfl⟩

/-! ## Claim C5: amended -/

/-- A track-loop iteration whose range cannot trip the slice panic
produces exactly the non-panic outcome. -/
theorem goSplitStep_eq_noPanic (total s e : Nat) (h : s < total → s ≤ e) :
    goSplitStep total s e = some (trackOutcomeNoPanic total s e) := by
  unfold goSplitStep trackOutcomeNoPanic
  by_cases h1 : total ≤ s
  · simp [h1]
  · have hse : s ≤ e := h (by omega)
    have h2 : s ≤ min e total := by omega
    by_cases h3 : min e total = s <;> simp [h1, h2, h3]

/-- The track loop over panic-free ranges: one outcome per range, in
order, no abort. -/
theorem runRanges_eq_map (total : Nat) (rs : List (Track × Nat × Nat))
    (h : ∀ r ∈ rs, r.2.1 < total → r.2.1 ≤ r.2.2) :
    runRanges total rs =
      (rs.map (fun r => (r.1.number, trackOutcomeNoPanic total r.2.1 r.2.2)), false) := by
  induction rs with
  | nil => rfl
  | cons r rs ih =>
    obtain ⟨t, s, e⟩ := r
    have hr := h (t, s, e) (by simp)
    have hrest : ∀ r ∈ rs, r.2.1 < total → r.2.1 ≤ r.2.2 :=
      fun r hm => h r (by simp [hm])
    simp [runRanges, goSplitStep_eq_noPanic total s e hr, ih hrest]

/-- C5 (amended): in the full in-process strategy, whenever no range is
inverted below the end of the source (no slice panic is possible), the
loop emits exactly one outcome per track in CUE order and never aborts;
a track whose start sample is at or past the total sample count gets the
out-of-range outcome (it is excluded from output), and every track whose
start is in range with a non-empty clamped range produces its output
range.  (The hybrid strategy instead aborts the whole album on an
out-of-range track — see `splitSimple_aborts_whole_album`.) -/
theorem splitWithGoAudio_skips_out_of_range (tracks : List Track) (rate total : Nat)
    (h : ∀ r ∈ trackRanges rate total tracks, r.2.1 < total → r.2.1 ≤ r.2.2) :
    splitWithGoAudio tracks rate total =
      ((trackRanges rate total tracks).map
        (fun r => (r.1.number, trackOutcomeNoPanic total r.2.1 r.2.2)), false) ∧
    (∀ r ∈ trackRanges rate total tracks, total ≤ r.2.1 →
      trackOutcomeNoPanic total r.2.1 r.2.2 = TrackOutcome.outOfRange) ∧
    (∀ r ∈ trackRanges rate total tracks, r.2.1 < total → r.2.1 < min r.2.2 total →
      trackOutcomeNoPanic total r.2.1 r.2.2 =
        TrackOutcome.ok r.2.1 (min r.2.2 total)) := by
  refine ⟨runRanges_eq_map total _ h, ?_, ?_⟩
  · intro r _ hge
    simp [trackOutcomeNoPanic, hge]
  · intro r _ hlt hne
    have h1 : ¬ total ≤ r.2.1 := by omega
    have h2 : ¬ min r.2.2 total = r.2.1 := by omega
    simp [trackOutcomeNoPanic, h1, h2]

/-- Witness for C5 (amended): a first track starting at 99 minutes
against a 10-second source is skipped as out-of-range while the second,
in-range track still yields its output range. -/
theorem splitWithGoAudio_skips_out_of_range_witness :
    splitWithGoAudio outOfRangeTracks 44100 441000 =
      ([(1, TrackOutcome.outOfRange), (2, TrackOutcome.ok 0 441000)], false) := by
  rw [(splitWithGoAudio_skips_out_of_range outOfRangeTracks 44100 441000 (by decide)).1]
  decide

/-! ## Claim C4: amended -/

/-- A digit is not a colon. -/
theorem goDigit_ne_colon (c : Char) (h : goDigit c) : c ≠ (':') := by
  intro hc
  subst hc
  exact absurd h (by decide)

/-- Behaviour of `strings.Split` around an explicit separator occurrence. -/
theorem splitColon_append (a rest : List Char) (h : (':') ∉ a) :
    splitColon (a ++ ':' :: rest) = a :: splitColon rest := by
  induction a with
  | nil => simp [splitColon]
  | cons c a ih =>
    simp only [List.mem_cons, not_or] at h
    have hne : ¬ c = (':') := fun hc => h.1 hc.symm
    simp only [List.cons_append, splitColon, List.append_eq]
    rw [ih h.2]
    simp [hne]

/-- Behaviour of `strings.Split` on a separator-free string. -/
theorem splitColon_of_not_mem (a : List Char) (h : (':') ∉ a) :
    splitColon a = [a] := by
  induction a with
  | nil => rfl
  | cons c a ih =>
    simp only [List.mem_cons, not_or] at h
    simp [splitColon, ih h.2, Ne.symm h.1]

/-- Natural division is the floor of the rational quotient. -/
theorem natDiv_cast_eq_floor (a b : Nat) :
    ((a / b : Nat) : ℤ) = ⌊(a : ℚ) / (b : ℚ)⌋ := by
  rw [← Nat.floor_div_eq_div (α := ℚ) a b]
  exact Int.natCast_floor_eq_floor (by positivity)

/-- The `%.3f` step in exact integers: `(80*N + 3) / 6` is the rounding of
`N/75` seconds to thousandths. -/
theorem cueMillis_round (N : Nat) :
    (((80 * N + 3) / 6 : Nat) : ℤ) = round ((N : ℚ) / 75 * 1000) := by
  rw [round_eq]
  have h : (N : ℚ) / 75 * 1000 + 1 / 2 = ((80 * N + 3 : Nat) : ℚ) / ((6 : Nat) : ℚ) := by
    push_cast
    ring
  rw [h, ← natDiv_cast_eq_floor]

/-- The `uint64` truncation step in exact integers. -/
theorem mulDiv_cast_eq_floor (k rate : Nat) :
    ((k * rate / 1000 : Nat) : ℤ) = ⌊(k : ℚ) / 1000 * (rate : ℚ)⌋ := by
  have h : (k : ℚ) / 1000 * (rate : ℚ) = ((k * rate : Nat) : ℚ) / ((1000 : Nat) : ℚ) := by
    push_cast
    ring
  rw [h, ← natDiv_cast_eq_floor]

/-- C4 (amended): for every well-formed timecode — three colon-separated
digit segments parsed as (minutes, seconds, frames) — and every sample
rate, the seconds string carries `round((minutes*60 + seconds +
frames/75) * 1000)` thousandths (the `%.3f` rounding), and the sample
index is the **floor** of `thousandths/1000 * rate`: the conversion
truncates the product of the millisecond-rounded seconds with the rate,
rather than rounding the exact product as the claim states. -/
theorem cueTimeToSample_millis_floor (ds1 ds2 ds3 : List Char) (rate : Nat)
    (h1 : ∀ c ∈ ds1, goDigit c) (h2 : ∀ c ∈ ds2, goDigit c)
    (h3 : ∀ c ∈ ds3, goDigit c) :
    ((cueTimeMillis (String.mk (ds1 ++ (':' :: (ds2 ++ (':' :: ds3))))) : ℤ) =
      round ((((parseIntPrefix ds1 * 60 + parseIntPrefix ds2 : Nat) : ℚ) +
        (parseIntPrefix ds3 : ℚ) / 75) * 1000)) ∧
    ((cueTimeToSample (String.mk (ds1 ++ (':' :: (ds2 ++ (':' :: ds3))))) rate : ℤ) =
      ⌊(cueTimeMillis (String.mk (ds1 ++ (':' :: (ds2 ++ (':' :: ds3))))) : ℚ) / 1000 *
        (rate : ℚ)⌋) := by
  have hn1 : (':') ∉ ds1 := fun hm => goDigit_ne_colon _ (h1 _ hm) rfl
  have hn2 : (':') ∉ ds2 := fun hm => goDigit_ne_colon _ (h2 _ hm) rfl
  have hn3 : (':') ∉ ds3 := fun hm => goDigit_ne_colon _ (h3 _ hm) rfl
  have hsplit :
      splitColon (ds1 ++ (':' :: (ds2 ++ (':' :: ds3)))) = [ds1, ds2, ds3] := by
    rw [splitColon_append ds1 _ hn1, splitColon_append ds2 _ hn2,
      splitColon_of_not_mem ds3 hn3]
  have htl : (String.mk (ds1 ++ (':' :: (ds2 ++ (':' :: ds3))))).toList =
      ds1 ++ (':' :: (ds2 ++ (':' :: ds3))) := rfl
  have hmillis : cueTimeMillis (String.mk (ds1 ++ (':' :: (ds2 ++ (':' :: ds3))))) =
      (80 * ((parseIntPrefix ds1 * 60 + parseIntPrefix ds2) * 75 +
        parseIntPrefix ds3) + 3) / 6 := by
    unfold cueTimeMillis
    rw [htl, hsplit]
  constructor
  · rw [hmillis]
    have hsec :
        (((parseIntPrefix ds1 * 60 + parseIntPrefix ds2 : Nat) : ℚ) +
          (parseIntPrefix ds3 : ℚ) / 75) * 1000 =
        (((parseIntPrefix ds1 * 60 + parseIntPrefix ds2) * 75 +
          parseIntPrefix ds3 : Nat) : ℚ) / 75 * 1000 := by
      push_cast
      ring
    rw [hsec]
    exact cueMillis_round _
  · unfold cueTimeToSample
    exact mulDiv_cast_eq_floor _ rate

/-- Witness for C4 (amended) at the timecode `00:00:01` and 44100 Hz. -/
theorem cueTimeToSample_millis_floor_witness :
    ((cueTimeMillis (String.mk ((['0', '0']) ++ (':' :: ((['0', '0']) ++ (':' ::
        (['0', '1'])))))) : ℤ) =
      round ((((parseIntPrefix (['0', '0']) * 60 + parseIntPrefix (['0', '0']) :
          Nat) : ℚ) + (parseIntPrefix (['0', '1']) : ℚ) / 75) * 1000)) ∧
    ((cueTimeToSample (String.mk ((['0', '0']) ++ (':' :: ((['0', '0']) ++ (':' ::
        (['0', '1'])))))) 44100 : ℤ) =
      ⌊(cueTimeMillis (String.mk ((['0', '0']) ++ (':' :: ((['0', '0']) ++ (':' ::
        (['0', '1'])))))) : ℚ) / 1000 * ((44100 : Nat) : ℚ)⌋) :=
  cueTimeToSample_millis_floor (['0', '0']) (['0', '0']) (['0', '1']) 44100
    (by decide) (by decide) (by decide)

/-! ## Claim C3: amended -/

/-- Closing a track only appends to the track list. -/
theorem closeTrack_preserves (st : PState) :
    (closeTrack st).cue.audioFile = st.cue.audioFile ∧
    (closeTrack st).cue.audioFileType = st.cue.audioFileType ∧
    (closeTrack st).cue.performer = st.cue.performer ∧
    (closeTrack st).albumPerformer = st.albumPerformer := by
  unfold closeTrack
  split <;> simp

/-- Every scanner-loop branch other than the FILE branch leaves the
audio-file reference unchanged. -/
theorem processLine_preserves_file (config : ParserConfig) (st : PState)
    (l : String) (st2 : PState) (hp : processLine config st l = Except.ok st2)
    (hk : ∀ name ty, classify l ≠ LineKind.fileLine name ty) :
    st2.cue.audioFile = st.cue.audioFile ∧
      st2.cue.audioFileType = st.cue.audioFileType := by
  unfold processLine at hp
  cases hc : classify l
  case fileLine name ty => exact absurd hc (hk name ty)
  case remLine =>
    simp only [hc] at hp
    cases hr : parseREMField l st.cue config with
    | ok c2 =>
      simp only [hr] at hp
      injection hp with h
      subst h
      have hpres := parseREMField_preserves l st.cue config c2 hr
      exact ⟨hpres.1, hpres.2.1⟩
    | error e =>
      simp only [hr] at hp
      split at hp
      · cases hp
      · injection hp with h
        subst h
        exact ⟨rfl, rfl⟩
  all_goals
    simp only [hc] at hp
  all_goals
    repeat' split at hp
  all_goals
    injection hp with h
  all_goals
    subst h
  all_goals
    simp [closeTrack_preserves]

/-- The audio-file reference after the scanner loop is the capture of the
last FILE line, or the starting value when there is none. -/
theorem runLines_lastFile (config : ParserConfig) (lines : List String) :
    ∀ st st2 : PState, runLines config st lines = Except.ok st2 →
      (st2.cue.audioFile, st2.cue.audioFileType) =
        (match lastFileDecl lines with
         | some x => x
         | none => (st.cue.audioFile, st.cue.audioFileType)) := by
  induction lines with
  | nil =>
    intro st st2 h
    injection h with h2
    subst h2
    rfl
  | cons l ls ih =>
    intro st st2 h
    simp only [runLines] at h
    cases hp : processLine config st l with
    | error e =>
      rw [hp] at h
      cases h
    | ok stm =>
      rw [hp] at h
      have hrec := ih stm st2 h
      cases hl : lastFileDecl ls with
      | some x =>
        rw [hrec, hl]
        simp [lastFileDecl, hl]
      | none =>
        rw [hrec, hl]
        simp only [lastFileDecl, hl]
        cases hk : classify l with
        | fileLine name ty =>
          unfold processLine at hp
          simp only [hk] at hp
          injection hp with h2
          subst h2
          rfl
        | _ =>
          have hpres := processLine_preserves_file config st l stm hp
            (by rw [hk]; intro n t hc; cases hc)
          rw [hpres.1, hpres.2]

/-- C3 (amended): after parsing, the Album's audio_file and
audio_file_type are those of the **last** file declaration line in the
text (every such line overwrites them), or empty when there is none. -/
theorem parse_audioFile_is_last (config : ParserConfig) (lines : List String)
    (cue : CueFile) (h : parseWithConfig config lines = Except.ok cue) :
    (cue.audioFile, cue.audioFileType) =
      (match lastFileDecl lines with
       | some x => x
       | none => ((""), (""))) := by
  have hcue := parseWithConfig_ok config lines cue h
  subst hcue
  obtain ⟨st2, hst⟩ := runLines_isOk config lines initPState
  have hlast := runLines_lastFile config lines initPState st2 hst
  unfold parsedCue
  rw [hst]
  have hc := closeTrack_preserves st2
  rw [hc.1, hc.2.1]
  cases hl : lastFileDecl lines with
  | some x => rw [hl] at hlast; exact hlast
  | none => rw [hl] at hlast; exact hlast

/-- Witness for C3 (amended) on the two-FILE sheet. -/
theorem parse_audioFile_is_last_witness :
    ((parsedCue defaultConfig twoFileSheet).audioFile,
     (parsedCue defaultConfig twoFileSheet).audioFileType) =
      (match lastFileDecl twoFileSheet with
       | some x => x
       | none => ((""), (""))) :=
  parse_audioFile_is_last defaultConfig twoFileSheet
    (parsedCue defaultConfig twoFileSheet)
    (parseWithConfig_nonstrict defaultConfig twoFileSheet rfl)


/-! ## Claim C7 -/

/-- A `p+` capture is non-empty. -/
theorem takeClass1_ne_nil (p : Char → Bool) (cs cap r : List Char)
    (h : takeClass1 p cs = some (cap, r)) : cap ≠ [] := by
  cases cs with
  | nil => simp [takeClass1] at h
  | cons c cs =>
    simp only [takeClass1] at h
    split at h
    · injection h with h2
      rw [Prod.mk.injEq] at h2
      rw [← h2.1]
      simp
    · cases h

/-- A quoted capture is non-empty. -/
theorem matchQuoted_ne_nil (cs cap r : List Char)
    (h : matchQuoted cs = some (cap, r)) : cap ≠ [] := by
  simp only [matchQuoted, Option.bind_eq_bind, Option.bind_eq_some] at h
  obtain ⟨r1, _, ⟨cap0, r2⟩, htc, r3, _, hpure⟩ := h
  injection hpure with h2
  rw [Prod.mk.injEq] at h2
  rw [← h2.1]
  exact takeClass1_ne_nil _ _ _ _ htc

/-- A `PERFORMER "…"`-style capture is non-empty. -/
theorem matchKeyQuoted_ne_nil (kw line cap : List Char)
    (h : matchKeyQuoted kw line = some cap) : cap ≠ [] := by
  simp only [matchKeyQuoted, Option.bind_eq_bind, Option.bind_eq_some] at h
  obtain ⟨r1, _, r2, _, ⟨cap2, rest⟩, hq, hpure⟩ := h
  injection hpure with h2
  subst h2
  exact matchQuoted_ne_nil _ _ _ hq

/-- The payload of a performer-classified line is a non-empty string. -/
theorem classify_performer_ne_empty (l : String) (p : String)
    (h : classify l = LineKind.performerLine p) : p ≠ ("") := by
  unfold classify classifyCore at h
  repeat' split at h
  all_goals (try cases h)
  all_goals intro hc
  all_goals
    exact matchKeyQuoted_ne_nil _ _ _ (by assumption)
      (by simpa using congrArg String.data hc)

/-- One scanner-loop iteration preserves the performer correspondence. -/
theorem perfStep_corr (config : ParserConfig) (st : PState) (sc : PerfScan)
    (l : String) (st2 : PState) (hc : perfCorr st sc)
    (hp : processLine config st l = Except.ok st2) :
    perfCorr st2 (perfStep sc l) := by
  unfold perfCorr at hc
  obtain ⟨h1, h2, h3, h4⟩ := hc
  unfold processLine at hp
  unfold perfCorr perfStep
  cases hk : classify l <;> simp only [hk] at hp ⊢
  case fileLine name ty =>
    injection hp with h
    subst h
    exact ⟨h1, h2, h3, h4⟩
  case catalogLine v =>
    injection hp with h
    subst h
    exact ⟨h1, h2, h3, h4⟩
  case remLine =>
    cases hr : parseREMField l st.cue config with
    | ok c2 =>
      simp only [hr] at hp
      injection hp with h
      subst h
      have hpres := parseREMField_preserves l st.cue config c2 hr
      exact ⟨h1, hpres.2.2.1.trans h2, by rw [hpres.2.2.2]; exact h3, h4⟩
    | error e =>
      simp only [hr] at hp
      split at hp
      · cases hp
      · injection hp with h
        subst h
        exact ⟨h1, h2, h3, h4⟩
  case performerLine p =>
    cases hcur : st.currentTrack with
    | none =>
      have hsc : sc.cur = none := by rw [← h4, hcur]; rfl
      simp only [hcur] at hp
      simp only [hsc]
      by_cases hfp : sc.firstPerf = ("")
      · rw [h1, if_pos hfp] at hp
        injection hp with h
        subst h
        simp only [if_pos hfp]
        refine ⟨by simp, by simp, ?_, by simp⟩
        simpa using h3
      · rw [h1, if_neg hfp] at hp
        injection hp with h
        subst h
        simp only [if_neg hfp]
        exact ⟨h1, h2, h3, by simp [hcur, hsc]⟩
    | some tr =>
      have hsc : sc.cur = some tr.performer := by rw [← h4, hcur]; rfl
      simp only [hcur] at hp
      injection hp with h
      subst h
      simp only [hsc]
      exact ⟨h1, h2, h3, rfl⟩
  case composerLine p =>
    cases hcur : st.currentTrack with
    | none =>
      simp only [hcur] at hp
      injection hp with h
      subst h
      exact ⟨h1, h2, h3, by first
        | exact h4
        | (rw [← hcur]; exact h4)⟩
    | some tr =>
      have hsc : sc.cur = some tr.performer := by rw [← h4, hcur]; rfl
      simp only [hcur] at hp
      injection hp with h
      subst h
      rw [hsc]
      exact ⟨h1, h2, h3, rfl⟩
  case songwriterLine p =>
    cases hcur : st.currentTrack with
    | none =>
      simp only [hcur] at hp
      injection hp with h
      subst h
      exact ⟨h1, h2, h3, by first
        | exact h4
        | (rw [← hcur]; exact h4)⟩
    | some tr =>
      have hsc : sc.cur = some tr.performer := by rw [← h4, hcur]; rfl
      simp only [hcur] at hp
      injection hp with h
      subst h
      rw [hsc]
      exact ⟨h1, h2, h3, rfl⟩
  case titleLine t =>
    cases hcur : st.currentTrack with
    | none =>
      simp only [hcur] at hp
      split at hp <;>
        (injection hp with h
         subst h
         exact ⟨h1, h2, h3, by first
           | exact h4
           | (rw [← hcur]; exact h4)⟩)
    | some tr =>
      have hsc : sc.cur = some tr.performer := by rw [← h4, hcur]; rfl
      simp only [hcur] at hp
      injection hp with h
      subst h
      rw [hsc]
      exact ⟨h1, h2, h3, rfl⟩
  case trackLine =>
    injection hp with h
    subst h
    cases hcur : st.currentTrack with
    | none =>
      have hsc : sc.cur = none := by rw [← h4, hcur]; rfl
      simp only [closeTrack, hcur, hsc]
      exact ⟨h1, h2, h3, rfl⟩
    | some tr =>
      have hsc : sc.cur = some tr.performer := by rw [← h4, hcur]; rfl
      simp only [closeTrack, hcur, hsc]
      refine ⟨h1, h2, ?_, rfl⟩
      simp only [List.map_append, h3, List.map_cons, List.map_nil]
      have hfill : (fillTrackDefaults tr st.albumPerformer).performer =
          if tr.performer = ("") then sc.firstPerf else tr.performer := by
        unfold fillTrackDefaults
        split <;> simp_all
      rw [hfill]
  case indexLine t =>
    cases hcur : st.currentTrack with
    | none =>
      simp only [hcur] at hp
      injection hp with h
      subst h
      exact ⟨h1, h2, h3, h4⟩
    | some tr =>
      have hsc : sc.cur = some tr.performer := by rw [← h4, hcur]; rfl
      simp only [hcur] at hp
      injection hp with h
      subst h
      rw [hsc]
      exact ⟨h1, h2, h3, rfl⟩
  case pregapLine t =>
    cases hcur : st.currentTrack with
    | none =>
      simp only [hcur] at hp
      injection hp with h
      subst h
      exact ⟨h1, h2, h3, h4⟩
    | some tr =>
      have hsc : sc.cur = some tr.performer := by rw [← h4, hcur]; rfl
      simp only [hcur] at hp
      injection hp with h
      subst h
      rw [hsc]
      exact ⟨h1, h2, h3, rfl⟩
  case isrcLine v =>
    cases hcur : st.currentTrack with
    | none =>
      simp only [hcur] at hp
      injection hp with h
      subst h
      exact ⟨h1, h2, h3, h4⟩
    | some tr =>
      have hsc : sc.cur = some tr.performer := by rw [← h4, hcur]; rfl
      simp only [hcur] at hp
      injection hp with h
      subst h
      rw [hsc]
      exact ⟨h1, h2, h3, rfl⟩
  case otherLine =>
    injection hp with h
    subst h
    exact ⟨h1, h2, h3, h4⟩

/-- The scanner loop preserves the performer correspondence. -/
theorem runLines_perfCorr (config : ParserConfig) (lines : List String) :
    ∀ (st : PState) (sc : PerfScan) (st2 : PState), perfCorr st sc →
      runLines config st lines = Except.ok st2 →
      perfCorr st2 (perfScan sc lines) := by
  induction lines with
  | nil =>
    intro st sc st2 hc h
    injection h with h2
    subst h2
    exact hc
  | cons l ls ih =>
    intro st sc st2 hc h
    simp only [runLines] at h
    cases hp : processLine config st l with
    | error e =>
      rw [hp] at h
      cases h
    | ok stm =>
      rw [hp] at h
      exact ih stm (perfStep sc l) st2 (perfStep_corr config st sc l stm hc hp) h

/-- Closing the final open track matches the close step of the performer
bookkeeping. -/
theorem closeTrack_perfCorr (st : PState) (sc : PerfScan) (hc : perfCorr st sc) :
    (closeTrack st).cue.tracks.map (fun t => t.performer) = perfFinish sc ∧
    (closeTrack st).cue.performer = sc.firstPerf := by
  unfold perfCorr at hc
  obtain ⟨h1, h2, h3, h4⟩ := hc
  unfold closeTrack perfFinish
  cases hcur : st.currentTrack with
  | none =>
    have hsc : sc.cur = none := by rw [← h4, hcur]; rfl
    rw [hsc]
    exact ⟨h3, h2⟩
  | some tr =>
    have hsc : sc.cur = some tr.performer := by rw [← h4, hcur]; rfl
    rw [hsc]
    refine ⟨?_, h2⟩
    simp only [List.map_append, h3, List.map_cons, List.map_nil]
    have hfill : (fillTrackDefaults tr st.albumPerformer).performer =
        if tr.performer = ("") then sc.firstPerf else tr.performer := by
      unfold fillTrackDefaults
      split <;> simp_all
    rw [hfill]

/-- The album-default performer is frozen once it is non-empty or once a
track has opened. -/
theorem perfScan_firstPerf_stable (lines : List String) :
    ∀ sc : PerfScan, (sc.firstPerf ≠ ("") ∨ sc.cur ≠ none) →
      (perfScan sc lines).firstPerf = sc.firstPerf := by
  induction lines with
  | nil => intro sc _; rfl
  | cons l ls ih =>
    intro sc hsc
    show (perfScan (perfStep sc l) ls).firstPerf = sc.firstPerf
    have hstep : (perfStep sc l).firstPerf = sc.firstPerf ∧
        ((perfStep sc l).firstPerf ≠ ("") ∨ (perfStep sc l).cur ≠ none) := by
      unfold perfStep
      cases hk : classify l <;> simp only
      case performerLine p =>
        cases hcur : sc.cur with
        | none =>
          have hfp : sc.firstPerf ≠ ("") := by
            rcases hsc with h | h
            · exact h
            · exact absurd hcur h
          simp only [if_neg hfp]
          exact ⟨by simp, hsc⟩
        | some c => exact ⟨by simp, Or.inr (by simp)⟩
      case trackLine =>
        cases hcur : sc.cur with
        | none => exact ⟨by simp, Or.inr (by simp)⟩
        | some c => exact ⟨by simp, Or.inr (by simp)⟩
      all_goals exact ⟨by simp, hsc⟩
    rw [ih (perfStep sc l) hstep.2, hstep.1]

/-- Starting from the initial bookkeeping state, the captured
album-default performer is exactly the first pre-track performer line. -/
theorem perfScan_firstPerf_eq (lines : List String) :
    ∀ sc : PerfScan, sc.cur = none → sc.firstPerf = ("") →
      (perfScan sc lines).firstPerf = firstPreTrackPerformer lines := by
  induction lines with
  | nil =>
    intro sc _ h2
    exact h2
  | cons l ls ih =>
    intro sc h1 h2
    show (perfScan (perfStep sc l) ls).firstPerf = firstPreTrackPerformer (l :: ls)
    unfold firstPreTrackPerformer
    cases hk : classify l <;> simp only
    case performerLine p =>
      have hpne : p ≠ ("") := classify_performer_ne_empty l p hk
      have hstep : perfStep sc l = { sc with firstPerf := p } := by
        unfold perfStep
        rw [hk, h1]
        simp [h2]
      rw [hstep, perfScan_firstPerf_stable ls _ (Or.inl hpne)]
    case trackLine =>
      have hstep : perfStep sc l = { sc with cur := some ("") } := by
        unfold perfStep
        rw [hk, h1]
      rw [hstep, perfScan_firstPerf_stable ls _ (Or.inr (by simp))]
      exact h2
    all_goals {
      have hstep : perfStep sc l = sc := by
        unfold perfStep
        rw [hk]
      rw [hstep]
      exact ih sc h1 h2
    }

/-- C7: the album performer is the payload of the first performer line
occurring before any track line — later pre-track performer lines are
ignored — and the list of track performers is exactly the one produced by
the performer bookkeeping of the spec: each track keeps its own last
performer assignment, and a track closing with an empty performer
receives the first-captured album default. -/
theorem parser_performer_defaulting (config : ParserConfig) (lines : List String)
    (cue : CueFile) (h : parseWithConfig config lines = Except.ok cue) :
    cue.performer = firstPreTrackPerformer lines ∧
    cue.tracks.map (fun t => t.performer) = perfFinish (perfScan initPerfScan lines) ∧
    (perfScan initPerfScan lines).firstPerf = firstPreTrackPerformer lines := by
  have hcue := parseWithConfig_ok config lines cue h
  subst hcue
  obtain ⟨st2, hst⟩ := runLines_isOk config lines initPState
  have hcorr0 : perfCorr initPState initPerfScan := ⟨rfl, rfl, rfl, rfl⟩
  have hcorr := runLines_perfCorr config lines initPState initPerfScan st2 hcorr0 hst
  have hfin := closeTrack_perfCorr st2 (perfScan initPerfScan lines) hcorr
  have hfp := perfScan_firstPerf_eq lines initPerfScan rfl rfl
  unfold parsedCue
  rw [hst]
  exact ⟨hfin.2.trans hfp, hfin.1, hfp⟩

/-- Witness for C7 on a sheet with two pre-track performer lines and a
track without a performer of its own. -/
theorem parser_performer_defaulting_witness :
    (parsedCue defaultConfig doublePerformerSheet).performer =
      firstPreTrackPerformer doublePerformerSheet ∧
    (parsedCue defaultConfig doublePerformerSheet).tracks.map
        (fun t => t.performer) =
      perfFinish (perfScan initPerfScan doublePerformerSheet) ∧
    (perfScan initPerfScan doublePerformerSheet).firstPerf =
      firstPreTrackPerformer doublePerformerSheet :=
  parser_performer_defaulting defaultConfig doublePerformerSheet
    (parsedCue defaultConfig doublePerformerSheet)
    (parseWithConfig_nonstrict defaultConfig doublePerformerSheet rfl)
